import Mathlib

/-!
Shallow embedding of `app.py` (Article_Type_Classifier): a Streamlit script
that extracts text from an uploaded PDF, runs a zero-shot classifier over it,
computes four substring-based "scholarly indicators", and renders the verdict.

Python strings are modelled as Lean `String`s (whose `data` is the list of
code points, matching Python's view of a string as a sequence of characters).
The Python operations used by the script are modelled explicitly:
`needle in haystack` as `pyIn`, `str.lower()` as `pyLower`, slicing `s[:n]`
as `pyTake`.  The external libraries (pdfplumber, the HuggingFace pipeline,
Streamlit) appear as parameters / input data: a PDF is the list of its pages'
`extract_text()` results (`none` when a page yields no text), and the
classifier is a function argument.
-/

namespace ArticleTypeClassifier

/-- Model of Python list/string membership primitive: does `n` occur as a
contiguous sublist at the head of `h`? -/
def startsWith : List Char → List Char → Bool
  | [], _ => true
  | _ :: _, [] => false
  | c :: cs, d :: ds => c == d && startsWith cs ds

/-- Does `n` occur as a contiguous sublist anywhere in `h`? -/
def occursIn (n : List Char) : List Char → Bool
  | [] => startsWith n []
  | c :: rest => startsWith n (c :: rest) || occursIn n rest

/-- Model of Python `needle in haystack` for strings: substring containment. -/
def pyIn (needle haystack : String) : Bool :=
  occursIn needle.data haystack.data

/-- Model of Python `str.lower()`: lowercase each character. -/
def pyLower (s : String) : String :=
  ⟨s.data.map Char.toLower⟩

/-- Model of Python slicing `s[:n]`: the first `n` characters of `s`. -/
def pyTake (s : String) (n : Nat) : String :=
  ⟨s.data.take n⟩

/-- `extract_text_from_pdf` (app.py lines 39-46).  A PDF is modelled by the
list of its pages' `page.extract_text()` results, in page order; `none` is
Python `None`.  The loop body `if text: full_text += text + "\n"` runs only
when `text` is truthy, i.e. neither `None` nor the empty string. -/
def extract_text_from_pdf (pages : List (Option String)) : String :=
  let full_text := pages.foldl
    (fun full_text text =>
      match text with
      | none => full_text
      | some t => if t = "" then full_text else full_text ++ t ++ "\n")
    ""
  pyTake full_text 4000

/-- Result object returned by the zero-shot pipeline: ranked labels with
their scores (scores modelled as rationals). -/
structure ClassifierResult where
  labels : List String
  scores : List ℚ

/-- `classify_text` (app.py lines 52-59).  The HuggingFace pipeline object
`classifier` is a parameter taking the text and the candidate labels. -/
def classify_text (classifier : String → List String → ClassifierResult)
    (text : String) : ClassifierResult :=
  let labels := ["scholarly peer-reviewed academic article",
    "popular or non-academic article"]
  classifier text labels

/-- `scholarly_indicators` (app.py lines 65-72).  The Python dict is modelled
as an association list in insertion order. -/
def scholarly_indicators (text : String) : List (String × Bool) :=
  [("Contains Abstract", pyIn "Abstract" text),
   ("Contains References", pyIn "References" text || pyIn "Bibliography" text),
   ("Contains DOI", pyIn "doi" (pyLower text)),
   ("Mentions Journal/Volume", pyIn "Journal" text || pyIn "Vol." text)]

/-- The two verdict banners the UI can show (app.py lines 94-97). -/
inductive Verdict where
  | scholarly
  | popular
deriving DecidableEq

/-- The branch at app.py lines 94-97: `if "scholarly" in predicted_label`. -/
def displayedVerdict (predicted_label : String) : Verdict :=
  if pyIn "scholarly" predicted_label then Verdict.scholarly else Verdict.popular

/-- app.py lines 89-97: `predicted_label = result['labels'][0]`,
`confidence = result['scores'][0]`, then the verdict banner with the
confidence.  Python indexing `[0]` presupposes nonempty lists. -/
def handlerOutput (result : ClassifierResult) (h1 : result.labels ≠ [])
    (h2 : result.scores ≠ []) : Verdict × ℚ :=
  (displayedVerdict (result.labels.head h1), result.scores.head h2)

/-- app.py lines 99-102: one line per heuristic, `f"{icon} {key}"` with
`icon = "✅" if value else "❌"`, in dict iteration order. -/
def renderHeuristics (heuristics : List (String × Bool)) : List String :=
  heuristics.map (fun kv => (if kv.2 then "✅" else "❌") ++ " " ++ kv.1)

/-- app.py line 105: the expander shows `extracted_text[:2000]`. -/
def shownText (extracted_text : String) : String :=
  pyTake extracted_text 2000

/-! ### Basic lemmas about the Python-primitive models -/

theorem startsWith_iff (n h : List Char) :
    startsWith n h = true ↔ ∃ v, h = n ++ v := by
  induction n generalizing h with
  | nil =>
    simp [startsWith]
  | cons c cs ih =>
    cases h with
    | nil =>
      simp [startsWith]
    | cons d ds =>
      simp only [startsWith, Bool.and_eq_true, beq_iff_eq, ih, List.cons_append,
        List.cons.injEq]
      constructor
      · rintro ⟨rfl, v, rfl⟩
        exact ⟨v, rfl, rfl⟩
      · rintro ⟨v, rfl, rfl⟩
        exact ⟨rfl, v, rfl⟩

theorem occursIn_iff (n h : List Char) :
    occursIn n h = true ↔ ∃ u v, h = u ++ n ++ v := by
  induction h with
  | nil =>
    simp only [occursIn, startsWith_iff]
    constructor
    · rintro ⟨v, hv⟩
      exact ⟨[], v, by simpa using hv⟩
    · rintro ⟨u, v, huv⟩
      exact ⟨v, by simp at huv ⊢; tauto⟩
  | cons c rest ih =>
    simp only [occursIn, Bool.or_eq_true, startsWith_iff, ih]
    constructor
    · rintro (⟨v, hv⟩ | ⟨u, v, huv⟩)
      · exact ⟨[], v, by simpa using hv⟩
      · exact ⟨c :: u, v, by simp [huv]⟩
    · rintro ⟨u, v, huv⟩
      cases u with
      | nil =>
        exact Or.inl ⟨v, by simpa using huv⟩
      | cons a u =>
        simp only [List.cons_append, List.cons.injEq] at huv
        exact Or.inr ⟨u, v, huv.2⟩

theorem pyIn_iff (needle haystack : String) :
    pyIn needle haystack = true ↔
      ∃ u v, haystack.data = u ++ needle.data ++ v := by
  exact occursIn_iff _ _

theorem pyLower_append (s t : String) :
    pyLower (s ++ t) = pyLower s ++ pyLower t := by
  apply String.ext
  simp [pyLower, String.data_append]

theorem pyIn_append_right (n s t : String) (h : pyIn n s = true) :
    pyIn n (s ++ t) = true := by
  rw [pyIn_iff] at h ⊢
  obtain ⟨u, v, hs⟩ := h
  exact ⟨u, v ++ t.data, by simp [String.data_append, hs]⟩

theorem pyIn_append_left (n s t : String) (h : pyIn n s = true) :
    pyIn n (t ++ s) = true := by
  rw [pyIn_iff] at h ⊢
  obtain ⟨u, v, hs⟩ := h
  exact ⟨t.data ++ u, v, by simp [String.data_append, hs]⟩

theorem join_cons (a : String) (l : List String) :
    String.join (a :: l) = a ++ String.join l := by
  apply String.ext
  simp [String.data_join, String.data_append]

/-! ### Spec-side restatement of the extraction loop (for the refinement
claim about `extract_text_from_pdf`): the concatenation, in page order, of
`t ++ "\n"` over exactly those pages whose extraction produced a non-empty
text, truncated to 4000 characters. -/

/-- The concatenation described by the spec: drop pages with no text
(`none`) and pages with empty text, append a newline to each remaining
page text, and join in page order. -/
def specPageConcat (pages : List (Option String)) : String :=
  String.join (((pages.filterMap id).filter (fun t => t != "")).map
    (fun t => t ++ "\n"))

theorem extract_loop_eq (pages : List (Option String)) (acc : String) :
    pages.foldl
      (fun full_text text =>
        match text with
        | none => full_text
        | some t => if t = "" then full_text else full_text ++ t ++ "\n")
      acc = acc ++ specPageConcat pages := by
  induction pages generalizing acc with
  | nil =>
    simp [specPageConcat, String.join]
  | cons p rest ih =>
    cases p with
    | none =>
      simp only [List.foldl_cons, ih, specPageConcat, List.filterMap_cons,
        id_eq]
    | some t =>
      by_cases ht : t = ""
      · simp [List.foldl_cons, ht, ih, specPageConcat, List.filterMap_cons,
          List.filter_cons, id_eq]
      · simp only [List.foldl_cons, ht, if_false, ih, specPageConcat,
          List.filterMap_cons, List.filter_cons, id_eq]
        have htb : (t != "") = true := by simpa using ht
        simp only [htb, if_true, List.map_cons, join_cons,
          String.append_assoc]

/-! ### Fallible versions (error propagation)

The Python code contains no `try`/`except`: any exception raised by
`pdfplumber.open`, by `page.extract_text()`, or by the classifier pipeline
propagates to the caller.  We model exceptions with `Except ε`:
`pdfplumber.open` yields either an error or the list of per-page
`extract_text()` outcomes, each itself either an error or an optional text;
the straight-line Python code corresponds to the monadic sequencing below,
with no handler anywhere. -/

/-- One iteration of the extraction loop when the page extraction itself may
raise: a raised error aborts the loop unchanged. -/
def pageStepE {ε : Type} (full_text : String) (text : Except ε (Option String)) :
    Except ε String :=
  match text with
  | Except.error e => Except.error e
  | Except.ok none => Except.ok full_text
  | Except.ok (some t) =>
      Except.ok (if t = "" then full_text else full_text ++ t ++ "\n")

/-- `extract_text_from_pdf` with the PDF library's exceptions made explicit:
`opened` is the outcome of `pdfplumber.open`, and each page's outcome is the
result of `page.extract_text()`. -/
def extract_text_from_pdfE {ε : Type}
    (opened : Except ε (List (Except ε (Option String)))) : Except ε String :=
  match opened with
  | Except.error e => Except.error e
  | Except.ok pages =>
    match pages.foldlM pageStepE "" with
    | Except.error e => Except.error e
    | Except.ok full_text => Except.ok (pyTake full_text 4000)

/-- `classify_text` with the classifier's exceptions made explicit. -/
def classify_textE {ε : Type}
    (classifier : String → List String → Except ε ClassifierResult)
    (text : String) : Except ε ClassifierResult :=
  let labels := ["scholarly peer-reviewed academic article",
    "popular or non-academic article"]
  classifier text labels

/-- The first exception raised during per-page extraction, if any. -/
def firstPageError {ε : Type} : List (Except ε (Option String)) → Option ε
  | [] => none
  | Except.error e :: _ => some e
  | Except.ok _ :: rest => firstPageError rest

theorem extract_text_from_pdfE_ok_eq {ε : Type}
    (pages : List (Except ε (Option String))) :
    extract_text_from_pdfE (Except.ok pages) =
      match pages.foldlM pageStepE "" with
      | Except.error e => Except.error e
      | Except.ok full_text => Except.ok (pyTake full_text 4000) :=
  rfl

theorem foldlM_pageStepE_error {ε : Type}
    (pages : List (Except ε (Option String))) (e : ε)
    (h : firstPageError pages = some e) (acc : String) :
    pages.foldlM pageStepE acc = Except.error e := by
  induction pages generalizing acc with
  | nil =>
    simp [firstPageError] at h
  | cons p rest ih =>
    cases p with
    | error e' =>
      simp only [firstPageError, Option.some.injEq] at h
      subst h
      rfl
    | ok o =>
      simp only [firstPageError] at h
      cases o with
      | none =>
        exact ih h acc
      | some t =>
        exact ih h _

theorem foldlM_pageStepE_ok {ε : Type} (pages : List (Option String))
    (acc : String) :
    (pages.map Except.ok : List (Except ε (Option String))).foldlM pageStepE
        acc =
      Except.ok (pages.foldl
        (fun full_text text =>
          match text with
          | none => full_text
          | some t => if t = "" then full_text else full_text ++ t ++ "\n")
        acc) := by
  induction pages generalizing acc with
  | nil =>
    rfl
  | cons p rest ih =>
    cases p with
    | none =>
      simpa [pageStepE] using ih acc
    | some t =>
      by_cases ht : t = ""
      · simpa [pageStepE, ht] using ih acc
      · simpa [pageStepE, ht] using ih (acc ++ t ++ "\n")

theorem foldlM_pageStepE_total {ε : Type}
    (pages : List (Except ε (Option String)))
    (h : firstPageError pages = none) (acc : String) :
    ∃ s, pages.foldlM pageStepE acc = Except.ok s := by
  induction pages generalizing acc with
  | nil =>
    exact ⟨acc, rfl⟩
  | cons p rest ih =>
    cases p with
    | error e' =>
      simp [firstPageError] at h
    | ok o =>
      simp only [firstPageError] at h
      cases o with
      | none =>
        simpa [pageStepE] using ih h acc
      | some t =>
        by_cases ht : t = ""
        · simpa [pageStepE, ht] using ih h acc
        · simpa [pageStepE, ht] using ih h (acc ++ t ++ "\n")

/-! ### Claim theorems -/

/-- C1: the UI reports the document as Scholarly / Peer-reviewed exactly when
`"scholarly"` occurs as a substring of the top-ranked label
`result['labels'][0]`, otherwise as Popular / Non-academic; exactly one of
the two verdicts is shown, together with the top-ranked score as the
confidence. -/
theorem spec_C1_verdict (result : ClassifierResult) (h1 : result.labels ≠ [])
    (h2 : result.scores ≠ []) :
    ((handlerOutput result h1 h2).1 = Verdict.scholarly ↔
      pyIn "scholarly" (result.labels.head h1) = true)
    ∧ ((handlerOutput result h1 h2).1 = Verdict.popular ↔
      pyIn "scholarly" (result.labels.head h1) = false)
    ∧ (handlerOutput result h1 h2).2 = result.scores.head h2 := by
  cases hb : pyIn "scholarly" (result.labels.head h1) <;>
    simp [handlerOutput, displayedVerdict, hb]

theorem spec_C1_verdict_witness :
    (handlerOutput
        ⟨["scholarly peer-reviewed academic article",
          "popular or non-academic article"], [9/10, 1/10]⟩
        (by simp) (by simp)).1 = Verdict.scholarly :=
  (spec_C1_verdict _ _ _).1.mpr (by decide)

/-- C2: `scholarly_indicators` returns a mapping with exactly the four keys,
in order, where "Contains Abstract" holds iff `"Abstract"` occurs in the
text, "Contains References" iff `"References"` or `"Bibliography"` occurs,
"Contains DOI" iff `"doi"` occurs in the lowercased text, and
"Mentions Journal/Volume" iff `"Journal"` or `"Vol."` occurs. -/
theorem spec_C2_indicators (t : String) :
    (scholarly_indicators t).map Prod.fst =
      ["Contains Abstract", "Contains References", "Contains DOI",
        "Mentions Journal/Volume"]
    ∧ ((scholarly_indicators t).lookup "Contains Abstract" = some true ↔
        ∃ u v, t.data = u ++ "Abstract".data ++ v)
    ∧ ((scholarly_indicators t).lookup "Contains References" = some true ↔
        ((∃ u v, t.data = u ++ "References".data ++ v) ∨
          ∃ u v, t.data = u ++ "Bibliography".data ++ v))
    ∧ ((scholarly_indicators t).lookup "Contains DOI" = some true ↔
        ∃ u v, (pyLower t).data = u ++ "doi".data ++ v)
    ∧ ((scholarly_indicators t).lookup "Mentions Journal/Volume" = some true ↔
        ((∃ u v, t.data = u ++ "Journal".data ++ v) ∨
          ∃ u v, t.data = u ++ "Vol.".data ++ v)) := by
  refine ⟨rfl, ?_, ?_, ?_, ?_⟩
  · have e : (scholarly_indicators t).lookup "Contains Abstract" =
        some (pyIn "Abstract" t) := rfl
    rw [e, Option.some.injEq, pyIn_iff]
  · have e : (scholarly_indicators t).lookup "Contains References" =
        some (pyIn "References" t || pyIn "Bibliography" t) := rfl
    rw [e, Option.some.injEq, Bool.or_eq_true, pyIn_iff, pyIn_iff]
  · have e : (scholarly_indicators t).lookup "Contains DOI" =
        some (pyIn "doi" (pyLower t)) := rfl
    rw [e, Option.some.injEq, pyIn_iff]
  · have e : (scholarly_indicators t).lookup "Mentions Journal/Volume" =
        some (pyIn "Journal" t || pyIn "Vol." t) := rfl
    rw [e, Option.some.injEq, Bool.or_eq_true, pyIn_iff, pyIn_iff]

/-- C3: `extract_text_from_pdf` returns the first 4000 characters of the
concatenation, in page order, of each non-empty extracted page text followed
by a newline; pages yielding no text (or empty text) contribute nothing. -/
theorem spec_C3_extract (pages : List (Option String)) :
    extract_text_from_pdf pages = pyTake (specPageConcat pages) 4000 := by
  simp only [extract_text_from_pdf]
  rw [extract_loop_eq, String.empty_append]

/-- C4: `classify_text` invokes the classifier with the input text unchanged
and exactly the two candidate labels, in order, and returns the classifier's
result unchanged. -/
theorem spec_C4_classify
    (classifier : String → List String → ClassifierResult) (text : String) :
    classify_text classifier text =
      classifier text ["scholarly peer-reviewed academic article",
        "popular or non-academic article"] :=
  rfl

/-- C5: the script has no error handling of its own.  An error from opening
the PDF propagates unchanged; the first error raised during per-page text
extraction propagates unchanged; when the library raises nothing the
extraction succeeds (and agrees with the error-free model) with no fallback
branch; and `classify_text` returns exactly what the classifier returns,
errors included. -/
theorem spec_C5_error_propagation (ε : Type) :
    (∀ e : ε, extract_text_from_pdfE (Except.error e) = Except.error e)
    ∧ (∀ (pages : List (Except ε (Option String))) (e : ε),
        firstPageError pages = some e →
          extract_text_from_pdfE (Except.ok pages) = Except.error e)
    ∧ (∀ pages : List (Except ε (Option String)),
        firstPageError pages = none →
          ∃ s, extract_text_from_pdfE (Except.ok pages) = Except.ok s)
    ∧ (∀ pages : List (Option String),
        extract_text_from_pdfE
            (Except.ok (pages.map Except.ok) :
              Except ε (List (Except ε (Option String)))) =
          Except.ok (extract_text_from_pdf pages))
    ∧ (∀ (classifier : String → List String → Except ε ClassifierResult)
        (text : String),
        classify_textE classifier text =
          classifier text ["scholarly peer-reviewed academic article",
            "popular or non-academic article"]) := by
  refine ⟨fun e => rfl, ?_, ?_, ?_, fun classifier text => rfl⟩
  · intro pages e h
    rw [extract_text_from_pdfE_ok_eq, foldlM_pageStepE_error pages e h]
  · intro pages h
    obtain ⟨s, hs⟩ := foldlM_pageStepE_total pages h ""
    refine ⟨pyTake s 4000, ?_⟩
    rw [extract_text_from_pdfE_ok_eq, hs]
  · intro pages
    rw [extract_text_from_pdfE_ok_eq, foldlM_pageStepE_ok]
    rfl

theorem spec_C5_error_propagation_witness :
    extract_text_from_pdfE
        (Except.ok [Except.ok (some "abc"), Except.error 7, Except.error 8] :
          Except Nat (List (Except Nat (Option String)))) =
      Except.error 7 :=
  (spec_C5_error_propagation Nat).2.1 _ 7 rfl

/-- C6: `extract_text_from_pdf` and `scholarly_indicators` are deterministic:
equal inputs give equal outputs (both are pure functions of their input in
this embedding; neither touches any other state). -/
theorem spec_C6_deterministic (pages pages' : List (Option String))
    (t t' : String) (hp : pages = pages') (ht : t = t') :
    extract_text_from_pdf pages = extract_text_from_pdf pages'
    ∧ scholarly_indicators t = scholarly_indicators t' := by
  subst hp
  subst ht
  exact ⟨rfl, rfl⟩

theorem spec_C6_deterministic_witness :
    extract_text_from_pdf [some "a", none] =
        extract_text_from_pdf [some "a", none]
    ∧ scholarly_indicators "doi" = scholarly_indicators "doi" :=
  spec_C6_deterministic _ _ _ _ rfl rfl

/-- C7: all four heuristic indicators are displayed, in the fixed order
Contains Abstract, Contains References, Contains DOI, Mentions
Journal/Volume, each line a ✅ icon when the boolean is true and a ❌ icon
when it is false, followed by the key. -/
theorem spec_C7_render (text : String) :
    renderHeuristics (scholarly_indicators text) =
      [(if pyIn "Abstract" text then "✅" else "❌") ++ " " ++
          "Contains Abstract",
        (if pyIn "References" text || pyIn "Bibliography" text then "✅"
          else "❌") ++ " " ++ "Contains References",
        (if pyIn "doi" (pyLower text) then "✅" else "❌") ++ " " ++
          "Contains DOI",
        (if pyIn "Journal" text || pyIn "Vol." text then "✅" else "❌") ++
          " " ++ "Mentions Journal/Volume"] :=
  rfl

/-- C8: each heuristic indicator is monotone under text extension: an
indicator true on `s` stays true on `s ++ t` and on `t ++ s`. -/
theorem spec_C8_monotone (s t k : String)
    (h : (scholarly_indicators s).lookup k = some true) :
    (scholarly_indicators (s ++ t)).lookup k = some true
    ∧ (scholarly_indicators (t ++ s)).lookup k = some true := by
  simp only [scholarly_indicators, List.lookup] at h ⊢
  cases hk1 : k == "Contains Abstract" with
  | true =>
    simp only [hk1, Option.some.injEq] at h ⊢
    exact ⟨pyIn_append_right _ _ _ h, pyIn_append_left _ _ _ h⟩
  | false =>
    simp only [hk1] at h ⊢
    cases hk2 : k == "Contains References" with
    | true =>
      simp only [hk2, Option.some.injEq, Bool.or_eq_true] at h ⊢
      rcases h with h | h
      · exact ⟨Or.inl (pyIn_append_right _ _ _ h),
          Or.inl (pyIn_append_left _ _ _ h)⟩
      · exact ⟨Or.inr (pyIn_append_right _ _ _ h),
          Or.inr (pyIn_append_left _ _ _ h)⟩
    | false =>
      simp only [hk2] at h ⊢
      cases hk3 : k == "Contains DOI" with
      | true =>
        simp only [hk3, Option.some.injEq] at h ⊢
        rw [pyLower_append, pyLower_append]
        exact ⟨pyIn_append_right _ _ _ h, pyIn_append_left _ _ _ h⟩
      | false =>
        simp only [hk3] at h ⊢
        cases hk4 : k == "Mentions Journal/Volume" with
        | true =>
          simp only [hk4, Option.some.injEq, Bool.or_eq_true] at h ⊢
          rcases h with h | h
          · exact ⟨Or.inl (pyIn_append_right _ _ _ h),
              Or.inl (pyIn_append_left _ _ _ h)⟩
          · exact ⟨Or.inr (pyIn_append_right _ _ _ h),
              Or.inr (pyIn_append_left _ _ _ h)⟩
        | false =>
          simp only [hk4] at h
          exact Option.noConfusion h

theorem spec_C8_monotone_witness :
    (scholarly_indicators ("Abstract" ++ " etc")).lookup "Contains Abstract" =
        some true
    ∧ (scholarly_indicators (" etc" ++ "Abstract")).lookup
        "Contains Abstract" = some true :=
  spec_C8_monotone "Abstract" " etc" "Contains Abstract" (by decide)

/-- C9: the "Contains DOI" indicator is case-insensitive — any casing of
"doi" anywhere in the text makes it true — while the other three indicators
are case-sensitive: on "abstract references journal vol." all three are
false. -/
theorem spec_C9_case_sensitivity :
    (∀ c u v : String, pyLower c = "doi" →
        (scholarly_indicators (u ++ c ++ v)).lookup "Contains DOI" =
          some true)
    ∧ (scholarly_indicators "abstract references journal vol.").lookup
        "Contains Abstract" = some false
    ∧ (scholarly_indicators "abstract references journal vol.").lookup
        "Contains References" = some false
    ∧ (scholarly_indicators "abstract references journal vol.").lookup
        "Mentions Journal/Volume" = some false := by
  refine ⟨?_, by decide, by decide, by decide⟩
  intro c u v hc
  have e : (scholarly_indicators (u ++ c ++ v)).lookup "Contains DOI" =
      some (pyIn "doi" (pyLower (u ++ c ++ v))) := rfl
  rw [e, Option.some.injEq, pyLower_append, pyLower_append, hc]
  exact pyIn_append_right _ _ _ (pyIn_append_left _ _ _ (by decide))

theorem spec_C9_case_sensitivity_witness :
    (scholarly_indicators ("x " ++ "DoI" ++ " y")).lookup "Contains DOI" =
      some true :=
  spec_C9_case_sensitivity.1 "DoI" "x " " y" (by decide)

/-- C10: the "Show Extracted Text" view displays at most the first 2000
characters of the extracted text, and what is shown is a prefix of the text
that was classified (the up-to-4000-character extraction). -/
theorem spec_C10_shown (pages : List (Option String)) :
    (shownText (extract_text_from_pdf pages)).length ≤ 2000
    ∧ ∃ rest, shownText (extract_text_from_pdf pages) ++ rest =
        extract_text_from_pdf pages := by
  constructor
  · have e : (shownText (extract_text_from_pdf pages)).length =
        ((extract_text_from_pdf pages).data.take 2000).length := rfl
    rw [e, List.length_take]
    exact min_le_left _ _
  · refine ⟨⟨(extract_text_from_pdf pages).data.drop 2000⟩, ?_⟩
    apply String.ext
    simp only [shownText, pyTake, String.data_append]
    exact List.take_append_drop _ _

end ArticleTypeClassifier
